import Mathlib

/-
Verification development for an EtherCAT / CiA 402 motor-drive interface
(soem_interface_backup.c). The definitions below are shallow embeddings of
the C functions; machine integers are modelled as Nat with explicit masks,
the SDO/transport layer is modelled as an environment oracle (a function
from transaction index to success flag plus a drive object-dictionary
state), and the cyclic-exchange thread is modelled as a step function on an
explicit state record.
-/

set_option linter.unusedVariables false

/-- CiA 402 drive states, mirroring the cia402_state_t enum used by the
source (CIA402_STATE_NOT_READY .. CIA402_STATE_FAULT). -/
inductive Cia402State where
  | notReady
  | switchOnDisabled
  | readyToSwitchOn
  | switchedOn
  | operationEnabled
  | quickStopActive
  | faultReactionActive
  | fault
deriving DecidableEq, Fintype

/-- Embedding of get_cia402_state (soem_interface_backup.c:89-109): mask the
statusword with 0x006F and match the CiA 402 state table; the switch default
checks the fault bit (0x0008) of the raw statusword. -/
def get_cia402_state (statusword : Nat) : Cia402State :=
  if statusword &&& 0x006F = 0x0000 then .notReady
  else if statusword &&& 0x006F = 0x0040 then .switchOnDisabled
  else if statusword &&& 0x006F = 0x0021 then .readyToSwitchOn
  else if statusword &&& 0x006F = 0x0023 then .switchedOn
  else if statusword &&& 0x006F = 0x0027 then .operationEnabled
  else if statusword &&& 0x006F = 0x0007 then .quickStopActive
  else if statusword &&& 0x006F = 0x000F then .faultReactionActive
  else if statusword &&& 0x006F = 0x0008 then .fault
  else if statusword &&& 0x0008 ≠ 0 then .fault
  else .notReady

/-- Embedding of get_cia402_controlword_for_transition
(soem_interface_backup.c:125-155). Every `break` of the C switch falls
through to the final `return 0x0006`. -/
def get_cia402_controlword_for_transition (current target : Cia402State) : Nat :=
  match current with
  | .notReady => if target = .readyToSwitchOn then 0x0006 else 0x0006
  | .switchOnDisabled => if target = .readyToSwitchOn then 0x0006 else 0x0006
  | .readyToSwitchOn => if target = .switchedOn then 0x0007 else 0x0006
  | .switchedOn => if target = .operationEnabled then 0x000F else 0x0006
  | .fault => 0x0080
  | _ => 0x0006

/-- Embedding of the controlword selection inside one iteration of
perform_cia402_transition_to_operational (soem_interface_backup.c:379-408):
`none` is the early `return 0` when the decoded state is already
OperationEnabled (no command is emitted and the caller stops polling);
otherwise the fault check and the inner switch pick the controlword. -/
def transition_controlword (state : Cia402State) : Option Nat :=
  if state = .operationEnabled then none
  else if state = .fault then some 0x0080
  else some (match state with
    | .notReady => 0x0006
    | .switchOnDisabled => 0x0006
    | .readyToSwitchOn => 0x0007
    | .switchedOn => 0x000F
    | .quickStopActive => 0x0006
    | _ => 0x0006)

/-- Result of the drive-to-operation-enabled phase: success flag, the number
of attempts consumed before returning (the index of the successful attempt,
or the attempt bound on failure), and the final values of the globals
current_statusword / current_cia402_state / current_controlword. -/
structure PerformResult where
  success : Bool
  attempts : Nat
  statusword : Nat
  state : Cia402State
  controlword : Nat

/-- Recursive core of perform_cia402_transition_to_operational
(soem_interface_backup.c:358-427). `env i` is the statusword read from the
input process image at attempt `i`; `remaining` is the fuel
(max_attempts - attempt); `sw`, `st`, `cw` carry the globals. -/
def perform_aux (env : Nat → Nat) :
    Nat → Nat → Nat → Cia402State → Nat → PerformResult
  | 0, i, sw, st, cw => ⟨false, i, sw, st, cw⟩
  | r + 1, i, _, _, cw =>
    let sw := env i
    let st := get_cia402_state sw
    match transition_controlword st with
    | none => ⟨true, i, sw, st, cw⟩
    | some c => perform_aux env r (i + 1) sw st c

/-- Embedding of perform_cia402_transition_to_operational
(soem_interface_backup.c:358-427) with its fixed bound max_attempts = 50,
started from the current global values `sw`, `st`, `cw`. -/
def perform_cia402_transition_to_operational
    (env : Nat → Nat) (sw : Nat) (st : Cia402State) (cw : Nat) : PerformResult :=
  perform_aux env 50 0 sw st cw

theorem transition_controlword_isSome (st : Cia402State)
    (h : st ≠ .operationEnabled) : (transition_controlword st).isSome := by
  cases st <;> simp_all [transition_controlword]

theorem perform_aux_spec (env : Nat → Nat) :
    ∀ (r i : Nat) (sw : Nat) (st : Cia402State) (cw : Nat),
      (((perform_aux env r i sw st cw).success = true →
          i ≤ (perform_aux env r i sw st cw).attempts ∧
          (perform_aux env r i sw st cw).attempts < i + r ∧
          get_cia402_state (env ((perform_aux env r i sw st cw).attempts)) =
            .operationEnabled ∧
          ∀ j, i ≤ j → j < (perform_aux env r i sw st cw).attempts →
            get_cia402_state (env j) ≠ .operationEnabled) ∧
       ((perform_aux env r i sw st cw).success = false →
          (perform_aux env r i sw st cw).attempts = i + r ∧
          ∀ j, i ≤ j → j < i + r →
            get_cia402_state (env j) ≠ .operationEnabled)) := by
  intro r
  induction r with
  | zero =>
    intro i sw st cw
    constructor
    · intro h; simp [perform_aux] at h
    · intro _; simp [perform_aux]
      intro j h1 h2; omega
  | succ r ih =>
    intro i sw st cw
    by_cases hoe : get_cia402_state (env i) = .operationEnabled
    · have hperf : perform_aux env (r + 1) i sw st cw =
        ⟨true, i, env i, get_cia402_state (env i), cw⟩ := by
        simp [perform_aux, transition_controlword, hoe]
      constructor
      · intro _
        rw [hperf]
        dsimp only
        refine ⟨le_refl i, by omega, hoe, ?_⟩
        intro j h1 h2; omega
      · intro h; rw [hperf] at h; simp at h
    · have hsome : (transition_controlword (get_cia402_state (env i))).isSome :=
        transition_controlword_isSome _ hoe
      obtain ⟨c, hc⟩ := Option.isSome_iff_exists.mp hsome
      have hperf : perform_aux env (r + 1) i sw st cw =
          perform_aux env r (i + 1) (env i) (get_cia402_state (env i)) c := by
        simp [perform_aux, hc]
      have ihspec := ih (i + 1) (env i) (get_cia402_state (env i)) c
      constructor
      · intro h
        rw [hperf] at h ⊢
        obtain ⟨h1, h2, h3, h4⟩ := ihspec.1 h
        refine ⟨by omega, by omega, h3, ?_⟩
        intro j hj1 hj2
        rcases Nat.eq_or_lt_of_le hj1 with heq | hlt
        · rw [← heq]; exact hoe
        · exact h4 j hlt hj2
      · intro h
        rw [hperf] at h ⊢
        obtain ⟨h1, h2⟩ := ihspec.2 h
        refine ⟨by omega, ?_⟩
        intro j hj1 hj2
        rcases Nat.eq_or_lt_of_le hj1 with heq | hlt
        · rw [← heq]; exact hoe
        · exact h2 j hlt (by omega)

/-- C2: get_cia402_state is a total function on 16-bit statuswords; it masks
the input with 0x6F and maps the eight defined patterns per the CiA 402
table, and any other masked pattern decodes to Fault when the fault bit
(bit 3) is set and to NotReady otherwise. Determinism and absence of side
effects and failure modes hold because the embedding is a pure total
function. -/
theorem claim_C2_status_decoder (sw : Nat) (hsw : sw < 65536) :
    (sw &&& 0x006F = 0x0000 → get_cia402_state sw = .notReady) ∧
    (sw &&& 0x006F = 0x0040 → get_cia402_state sw = .switchOnDisabled) ∧
    (sw &&& 0x006F = 0x0021 → get_cia402_state sw = .readyToSwitchOn) ∧
    (sw &&& 0x006F = 0x0023 → get_cia402_state sw = .switchedOn) ∧
    (sw &&& 0x006F = 0x0027 → get_cia402_state sw = .operationEnabled) ∧
    (sw &&& 0x006F = 0x0007 → get_cia402_state sw = .quickStopActive) ∧
    (sw &&& 0x006F = 0x000F → get_cia402_state sw = .faultReactionActive) ∧
    (sw &&& 0x006F = 0x0008 → get_cia402_state sw = .fault) ∧
    (sw &&& 0x006F ≠ 0x0000 → sw &&& 0x006F ≠ 0x0040 →
     sw &&& 0x006F ≠ 0x0021 → sw &&& 0x006F ≠ 0x0023 →
     sw &&& 0x006F ≠ 0x0027 → sw &&& 0x006F ≠ 0x0007 →
     sw &&& 0x006F ≠ 0x000F → sw &&& 0x006F ≠ 0x0008 →
      (sw &&& 0x0008 ≠ 0 → get_cia402_state sw = .fault) ∧
      (sw &&& 0x0008 = 0 → get_cia402_state sw = .notReady)) := by
  refine ⟨?_, ?_, ?_, ?_, ?_, ?_, ?_, ?_, ?_⟩
  all_goals intro h
  case _ => simp [get_cia402_state, h]
  case _ => simp [get_cia402_state, h]
  case _ => simp [get_cia402_state, h]
  case _ => simp [get_cia402_state, h]
  case _ => simp [get_cia402_state, h]
  case _ => simp [get_cia402_state, h]
  case _ => simp [get_cia402_state, h]
  case _ => simp [get_cia402_state, h]
  case _ =>
    intro h2 h3 h4 h5 h6 h7 h8
    constructor
    · intro hf
      simp [get_cia402_state, h, h2, h3, h4, h5, h6, h7, h8, hf]
    · intro hf
      simp [get_cia402_state, h, h2, h3, h4, h5, h6, h7, h8, hf]

/-- Witness for C2 at the concrete statusword 0x0231 (masked bits 0x21). -/
theorem claim_C2_status_decoder_witness :
    0x0231 &&& 0x006F = 0x0021 ∧ get_cia402_state 0x0231 = .readyToSwitchOn :=
  ⟨by decide, (claim_C2_status_decoder 0x0231 (by decide)).2.2.1 (by decide)⟩

/-- C3: the transition planner used by the state-machine loop emits, for
every CiA 402 state, exactly the controlword of the spec's transition graph:
Fault yields FaultReset (0x80); NotReady, SwitchOnDisabled and
QuickStopActive yield Shutdown (0x06); ReadyToSwitchOn yields SwitchOn
(0x07); SwitchedOn yields EnableOperation (0x0F); OperationEnabled yields no
command (the caller stops polling); the unmatched state
(FaultReactionActive) defaults to Shutdown (0x06). The standalone
get_cia402_controlword_for_transition agrees on every state: Fault yields
0x80 and the canonical transitions yield the same commands, defaulting to
Shutdown (0x06) for every unmatched combination. -/
theorem claim_C3_transition_planner :
    transition_controlword .fault = some 0x0080 ∧
    transition_controlword .notReady = some 0x0006 ∧
    transition_controlword .switchOnDisabled = some 0x0006 ∧
    transition_controlword .quickStopActive = some 0x0006 ∧
    transition_controlword .readyToSwitchOn = some 0x0007 ∧
    transition_controlword .switchedOn = some 0x000F ∧
    transition_controlword .operationEnabled = none ∧
    transition_controlword .faultReactionActive = some 0x0006 ∧
    (∀ t, get_cia402_controlword_for_transition .fault t = 0x0080) ∧
    (∀ t, get_cia402_controlword_for_transition .notReady t = 0x0006) ∧
    (∀ t, get_cia402_controlword_for_transition .switchOnDisabled t = 0x0006) ∧
    (∀ t, get_cia402_controlword_for_transition .quickStopActive t = 0x0006) ∧
    get_cia402_controlword_for_transition .readyToSwitchOn .switchedOn = 0x0007 ∧
    get_cia402_controlword_for_transition .switchedOn .operationEnabled = 0x000F ∧
    (∀ t, t ≠ .switchedOn →
      get_cia402_controlword_for_transition .readyToSwitchOn t = 0x0006) ∧
    (∀ t, t ≠ .operationEnabled →
      get_cia402_controlword_for_transition .switchedOn t = 0x0006) ∧
    (∀ t, get_cia402_controlword_for_transition .faultReactionActive t = 0x0006) := by
  decide

/-- C8: the drive-to-operation-enabled phase always terminates. For every
sequence of statuswords read from the input image, if it succeeds it did so
at the first attempt (strictly below the bound 50) whose decoded state is
OperationEnabled, and if it fails then no attempt among the 50 decoded to
OperationEnabled; the attempt counter never exceeds 50. -/
theorem claim_C8_bringup_termination (env : Nat → Nat) (sw : Nat)
    (st : Cia402State) (cw : Nat) :
    ((perform_cia402_transition_to_operational env sw st cw).attempts ≤ 50) ∧
    ((perform_cia402_transition_to_operational env sw st cw).success = true →
      (perform_cia402_transition_to_operational env sw st cw).attempts < 50 ∧
      get_cia402_state
        (env ((perform_cia402_transition_to_operational env sw st cw).attempts)) =
          .operationEnabled ∧
      ∀ j, j < (perform_cia402_transition_to_operational env sw st cw).attempts →
        get_cia402_state (env j) ≠ .operationEnabled) ∧
    ((perform_cia402_transition_to_operational env sw st cw).success = false →
      (perform_cia402_transition_to_operational env sw st cw).attempts = 50 ∧
      ∀ j, j < 50 → get_cia402_state (env j) ≠ .operationEnabled) := by
  have hspec := perform_aux_spec env 50 0 sw st cw
  unfold perform_cia402_transition_to_operational
  refine ⟨?_, ?_, ?_⟩
  · rcases h : (perform_aux env 50 0 sw st cw).success with _ | _
    · have := hspec.2 h; omega
    · have := hspec.1 h; omega
  · intro h
    obtain ⟨h1, h2, h3, h4⟩ := hspec.1 h
    exact ⟨by omega, h3, fun j hj => h4 j (Nat.zero_le j) hj⟩
  · intro h
    obtain ⟨h1, h2⟩ := hspec.2 h
    exact ⟨by omega, fun j hj => h2 j (Nat.zero_le j) (by omega)⟩

/-- Witness for C8 with an environment that reports OperationEnabled
(statusword 0x0027) from the first attempt onward. -/
theorem claim_C8_bringup_termination_witness :
    (perform_cia402_transition_to_operational (fun _ => 0x0027) 0 .notReady 0).success
        = true ∧
    (perform_cia402_transition_to_operational (fun _ => 0x0027) 0 .notReady 0).attempts
        < 50 := by
  refine ⟨by decide, ?_⟩
  exact ((claim_C8_bringup_termination (fun _ => 0x0027) 0 .notReady 0).2.1
    (by decide)).1

/-- Input process image fields read by the cyclic loop, mirroring the
somanet_tx_pdo_enhanced_t fields dereferenced in soem_interface_backup.c
(statusword, position_actual_value, velocity_actual_value). -/
structure InputImage where
  statusword : Nat
  position_actual_value : Int
  velocity_actual_value : Int
deriving DecidableEq

/-- Output process image fields written by the cyclic loop, mirroring the
somanet_rx_pdo_enhanced_t fields assigned in ecat_loop
(soem_interface_backup.c:450-461). -/
structure OutputImage where
  controlword : Nat
  modes_of_operation : Nat
  target_torque : Int
deriving DecidableEq

/-- The module-level shared variables of soem_interface_backup.c that the
cyclic loop and the control thread exchange under pdo_mutex, together with
the loop-local flag state_machine_initialized (modelled here as
state_machine_ready). Floats are modelled as rationals. -/
structure LoopState where
  target_torque_f : Rat
  current_position_f : Rat
  current_velocity_f : Rat
  current_cia402_state : Cia402State
  current_statusword : Nat
  current_controlword : Nat
  communication_ok : Bool
  state_machine_ready : Bool

/-- Truncation toward zero of a rational, the rounding used by a C cast of
a float to an integer type. -/
def trunc_toward_zero (q : Rat) : Int :=
  if q < 0 then -Int.floor (-q) else Int.floor q

/-- Reduction of an integer to the 16-bit two's-complement range, the value
reinterpretation performed by the C cast to int16_t. -/
def int16_wrap (z : Int) : Int :=
  (z + 32768) % 65536 - 32768

/-- Embedding of the output-image write at the top of each ecat_loop
iteration (soem_interface_backup.c:449-461): the target torque is the
setpoint scaled by 1000 and truncated to a 16-bit integer only when the
current CiA 402 state is OperationEnabled, else 0; the controlword and the
torque mode (4) are always written. -/
def writeOutputs (st : LoopState) : OutputImage :=
  { controlword := st.current_controlword
    modes_of_operation := 4
    target_torque :=
      if st.current_cia402_state = .operationEnabled then
        int16_wrap (trunc_toward_zero (st.target_torque_f * 1000))
      else 0 }

/-- One tick's worth of transport data for the cyclic loop: the working
counter returned by ec_receive_processdata, the input image, and the
statusword sequence served to the one-time CiA 402 bring-up phase if it is
invoked this tick. -/
structure CycleInput where
  wkc : Nat
  image : InputImage
  performEnv : Nat → Nat

/-- Embedding of one iteration of the cyclic loop body of ecat_loop
(soem_interface_backup.c:447-506): write the output image, exchange process
data, then if the working counter reaches the expected value set
communication_ok, refresh the telemetry fields from the input image and run
the one-time CiA 402 bring-up handoff, else clear communication_ok and
leave every telemetry field untouched. The trailing ec_statecheck
diagnostics call performs no writes and is not modelled. -/
def ecat_cycle (expectedWKC : Nat) (st : LoopState) (c : CycleInput) :
    LoopState × OutputImage :=
  let out := writeOutputs st
  if expectedWKC ≤ c.wkc then
    let st1 : LoopState :=
      { st with
        communication_ok := true
        current_statusword := c.image.statusword
        current_cia402_state := get_cia402_state c.image.statusword
        current_position_f := (c.image.position_actual_value : Rat)
        current_velocity_f := (c.image.velocity_actual_value : Rat) }
    if st1.state_machine_ready then
      (st1, out)
    else
      let p := perform_cia402_transition_to_operational c.performEnv
        st1.current_statusword st1.current_cia402_state st1.current_controlword
      ({ st1 with
          current_statusword := p.statusword
          current_cia402_state := p.state
          current_controlword := p.controlword
          state_machine_ready := p.success }, out)
  else
    ({ st with communication_ok := false }, out)

/-- Embedding of the cyclic while loop of ecat_loop: the loop processes one
tick per element of the transport trace and stops only when the trace (the
lifetime of ecat_thread_running) ends; a low working counter never ends
the loop. -/
def ecat_run (expectedWKC : Nat) (st : LoopState) :
    List CycleInput → LoopState × List OutputImage
  | [] => (st, [])
  | c :: rest =>
    let s := ecat_cycle expectedWKC st c
    let r := ecat_run expectedWKC s.1 rest
    (r.1, s.2 :: r.2)

/-- Embedding of the expected working-counter computation of
soem_interface_init_enhanced (soem_interface_backup.c:837):
(outputsWKC * 2) + inputsWKC, computed once at initialization. -/
def compute_expectedWKC (outputsWKC inputsWKC : Nat) : Nat :=
  outputsWKC * 2 + inputsWKC

/-- Embedding of soem_interface_send_and_receive_pdo
(soem_interface_backup.c:910-916): the control thread stores the torque
setpoint into the shared register; nothing else changes. -/
def soem_interface_send_and_receive_pdo (st : LoopState) (target_torque : Rat) :
    LoopState :=
  { st with target_torque_f := target_torque }

/-- C1: safety interlock of the cyclic loop. In every iteration, whenever
the current CiA 402 state is anything other than OperationEnabled, the
target-torque field written to the output image is 0, regardless of the
setpoint the control thread has requested through
soem_interface_send_and_receive_pdo; when the state is OperationEnabled the
field is the setpoint scaled by 1000 and truncated to a 16-bit integer. -/
theorem claim_C1_safety_interlock (expectedWKC : Nat) (st : LoopState)
    (c : CycleInput) :
    (st.current_cia402_state ≠ .operationEnabled →
      ∀ q : Rat,
        (ecat_cycle expectedWKC (soem_interface_send_and_receive_pdo st q) c).2.target_torque
          = 0) ∧
    (st.current_cia402_state = .operationEnabled →
      (ecat_cycle expectedWKC st c).2.target_torque =
        int16_wrap (trunc_toward_zero (st.target_torque_f * 1000))) := by
  constructor
  · intro h q
    have hout :
        (ecat_cycle expectedWKC (soem_interface_send_and_receive_pdo st q) c).2 =
          writeOutputs (soem_interface_send_and_receive_pdo st q) := by
      unfold ecat_cycle
      by_cases hw : expectedWKC ≤ c.wkc <;>
        simp [hw] <;> by_cases hr : st.state_machine_ready <;>
        simp [soem_interface_send_and_receive_pdo, hr]
    rw [hout]
    simp [writeOutputs, soem_interface_send_and_receive_pdo, h]
  · intro h
    have hout : (ecat_cycle expectedWKC st c).2 = writeOutputs st := by
      unfold ecat_cycle
      by_cases hw : expectedWKC ≤ c.wkc <;>
        simp [hw] <;> by_cases hr : st.state_machine_ready <;> simp [hr]
    rw [hout]
    simp [writeOutputs, h]

/-- Witness for C1 with the drive in the Fault state and a nonzero requested
setpoint of 7/2: the written torque field is 0. -/
theorem claim_C1_safety_interlock_witness :
    (ecat_cycle 3
        (soem_interface_send_and_receive_pdo
          ⟨0, 0, 0, .fault, 0x0008, 0x0080, false, true⟩ (7 / 2 : Rat))
        ⟨3, ⟨0x0008, 0, 0⟩, fun _ => 0⟩).2.target_torque = 0 :=
  (claim_C1_safety_interlock 3 ⟨0, 0, 0, .fault, 0x0008, 0x0080, false, true⟩
    ⟨3, ⟨0x0008, 0, 0⟩, fun _ => 0⟩).1 (by decide) (7 / 2 : Rat)

/-- C9: working-counter classification. The expected value is computed once
as 2 x outputsWKC + inputsWKC; on every cyclic iteration a working counter
below the expected value sets communication_ok false for that cycle while
the loop keeps running (it processes every remaining tick of the transport
trace), and a working counter at or above the expected value sets
communication_ok true. -/
theorem claim_C9_wkc_classification (expectedWKC : Nat) (st : LoopState)
    (c : CycleInput) :
    (∀ o i, compute_expectedWKC o i = 2 * o + i) ∧
    (c.wkc < expectedWKC →
      (ecat_cycle expectedWKC st c).1.communication_ok = false) ∧
    (expectedWKC ≤ c.wkc →
      (ecat_cycle expectedWKC st c).1.communication_ok = true) ∧
    (∀ (trace : List CycleInput) (s : LoopState),
      (ecat_run expectedWKC s trace).2.length = trace.length) := by
  refine ⟨?_, ?_, ?_, ?_⟩
  · intro o i; unfold compute_expectedWKC; omega
  · intro h
    have hw : ¬ expectedWKC ≤ c.wkc := by omega
    simp [ecat_cycle, hw]
  · intro h
    unfold ecat_cycle
    simp only [h, if_true]
    by_cases hr : st.state_machine_ready <;> simp [hr]
  · intro trace
    induction trace with
    | nil => intro s; simp [ecat_run]
    | cons c rest ih => intro s; simp [ecat_run, ih]

/-- Witness for C9: a degraded cycle (wkc 1 below expected 3) clears
communication_ok, a good cycle (wkc 3) sets it. -/
theorem claim_C9_wkc_classification_witness :
    (ecat_cycle 3 ⟨0, 0, 0, .notReady, 0, 6, true, true⟩
        ⟨1, ⟨0, 0, 0⟩, fun _ => 0⟩).1.communication_ok = false ∧
    (ecat_cycle 3 ⟨0, 0, 0, .notReady, 0, 6, false, true⟩
        ⟨3, ⟨0, 0, 0⟩, fun _ => 0⟩).1.communication_ok = true :=
  ⟨(claim_C9_wkc_classification 3 ⟨0, 0, 0, .notReady, 0, 6, true, true⟩
      ⟨1, ⟨0, 0, 0⟩, fun _ => 0⟩).2.1 (by decide),
   (claim_C9_wkc_classification 3 ⟨0, 0, 0, .notReady, 0, 6, false, true⟩
      ⟨3, ⟨0, 0, 0⟩, fun _ => 0⟩).2.2.1 (by decide)⟩

/-- C10: the shared telemetry fields (statusword, derived CiA 402 state,
position, velocity) are written from the input process image only on cycles
whose working counter reaches the expected value; on every degraded cycle
all four keep their previous values (so the getters can return stale values
while communication_ok is false), and on a good cycle in steady state (the
one-time bring-up handoff already done) all four take the values derived
from the input image, with the CiA 402 state recomputed from the fresh
statusword. -/
theorem claim_C10_telemetry_staleness (expectedWKC : Nat) (st : LoopState)
    (c : CycleInput) :
    (c.wkc < expectedWKC →
      (ecat_cycle expectedWKC st c).1.current_statusword = st.current_statusword ∧
      (ecat_cycle expectedWKC st c).1.current_cia402_state = st.current_cia402_state ∧
      (ecat_cycle expectedWKC st c).1.current_position_f = st.current_position_f ∧
      (ecat_cycle expectedWKC st c).1.current_velocity_f = st.current_velocity_f ∧
      (ecat_cycle expectedWKC st c).1.communication_ok = false) ∧
    (expectedWKC ≤ c.wkc → st.state_machine_ready = true →
      (ecat_cycle expectedWKC st c).1.current_statusword = c.image.statusword ∧
      (ecat_cycle expectedWKC st c).1.current_cia402_state =
        get_cia402_state c.image.statusword ∧
      (ecat_cycle expectedWKC st c).1.current_position_f =
        (c.image.position_actual_value : Rat) ∧
      (ecat_cycle expectedWKC st c).1.current_velocity_f =
        (c.image.velocity_actual_value : Rat)) := by
  constructor
  · intro h
    have hw : ¬ expectedWKC ≤ c.wkc := by omega
    simp [ecat_cycle, hw]
  · intro h hr
    simp [ecat_cycle, h, hr]

/-- Witness for C10: a degraded cycle leaves the previously stored
statusword 0x0237 and position 42 in place even though the input image
carries different values. -/
theorem claim_C10_telemetry_staleness_witness :
    (ecat_cycle 3 ⟨0, 42, 5, .operationEnabled, 0x0237, 0xF, true, true⟩
        ⟨0, ⟨0x0008, 7, 9⟩, fun _ => 0⟩).1.current_statusword = 0x0237 ∧
    (ecat_cycle 3 ⟨0, 42, 5, .operationEnabled, 0x0237, 0xF, true, true⟩
        ⟨0, ⟨0x0008, 7, 9⟩, fun _ => 0⟩).1.current_position_f = 42 := by
  have h := (claim_C10_telemetry_staleness 3
    ⟨0, 42, 5, .operationEnabled, 0x0237, 0xF, true, true⟩
    ⟨0, ⟨0x0008, 7, 9⟩, fun _ => 0⟩).1 (by decide)
  exact ⟨h.1, h.2.2.1⟩

/-- EtherCAT application-layer state codes from ethercattype.h. -/
def EC_STATE_INIT : Nat := 0x01

/-- EtherCAT PRE-OP state code. -/
def EC_STATE_PRE_OP : Nat := 0x02

/-- EtherCAT SAFE-OP state code. -/
def EC_STATE_SAFE_OP : Nat := 0x04

/-- EtherCAT OPERATIONAL state code. -/
def EC_STATE_OPERATIONAL : Nat := 0x08

/-- Transport responses consumed by one attempt of
soem_interface_set_ethercat_state: whether the first ec_statecheck for the
desired state returned a positive working counter, the slave state observed
afterwards (ec_slave[].state), and whether the ec_statecheck calls of the
SAFE-OP escalation and of the second OPERATIONAL request returned positive
working counters. -/
structure AttemptEnv where
  checkOk : Bool
  observed : Nat
  safeOpOk : Bool
  operOk : Bool

/-- Embedding of one attempt of the retry loop of
soem_interface_set_ethercat_state (soem_interface_backup.c:295-349).
Returns the attempt's success flag and the ordered list of slave states
requested through ec_writestate during the attempt. -/
def attempt_requests (desired : Nat) (e : AttemptEnv) : Bool × List Nat :=
  if e.checkOk = true ∧ e.observed &&& 0x0F = desired then
    (true, [desired])
  else if desired = EC_STATE_OPERATIONAL ∧ e.observed &&& 0x0F = EC_STATE_PRE_OP then
    if e.safeOpOk = true then
      if e.operOk = true then
        (true, [desired, EC_STATE_SAFE_OP, EC_STATE_OPERATIONAL])
      else
        (false, [desired, EC_STATE_SAFE_OP, EC_STATE_OPERATIONAL])
    else
      (false, [desired, EC_STATE_SAFE_OP])
  else
    (false, [desired])

/-- Retry loop of soem_interface_set_ethercat_state with `remaining`
attempts left, attempt index `i`: returns the overall success flag, the
number of attempts consumed, and the per-attempt request traces. -/
def set_state_aux (desired : Nat) (env : Nat → AttemptEnv) :
    Nat → Nat → Bool × Nat × List (List Nat)
  | 0, _ => (false, 0, [])
  | r + 1, i =>
    let a := attempt_requests desired (env i)
    if a.1 = true then
      (true, 1, [a.2])
    else
      let rest := set_state_aux desired env r (i + 1)
      (rest.1, rest.2.1 + 1, a.2 :: rest.2.2)

/-- Embedding of soem_interface_set_ethercat_state
(soem_interface_backup.c:291-355) with its fixed bound max_retries = 5. -/
def soem_interface_set_ethercat_state (desired : Nat) (env : Nat → AttemptEnv) :
    Bool × Nat × List (List Nat) :=
  set_state_aux desired env 5 0

theorem set_state_aux_bound (desired : Nat) (env : Nat → AttemptEnv) :
    ∀ r i, (set_state_aux desired env r i).2.1 ≤ r ∧
      ((set_state_aux desired env r i).1 = false →
        (set_state_aux desired env r i).2.1 = r) ∧
      (set_state_aux desired env r i).2.2 =
        (List.range (set_state_aux desired env r i).2.1).map
          (fun j => (attempt_requests desired (env (i + j))).2) := by
  intro r
  induction r with
  | zero => intro i; simp [set_state_aux]
  | succ r ih =>
    intro i
    by_cases ha : (attempt_requests desired (env i)).1 = true
    · simp [set_state_aux, ha, List.range_succ]
    · have hstep : set_state_aux desired env (r + 1) i =
          ((set_state_aux desired env r (i + 1)).1,
           (set_state_aux desired env r (i + 1)).2.1 + 1,
           (attempt_requests desired (env i)).2 ::
             (set_state_aux desired env r (i + 1)).2.2) := by
        simp [set_state_aux, ha]
      have hrec := ih (i + 1)
      rw [hstep]
      dsimp only
      refine ⟨by have := hrec.1; omega,
        by intro h; have := hrec.2.1 h; omega, ?_⟩
      rw [hrec.2.2, List.range_succ_eq_map, List.map_cons, List.map_map]
      simp only [List.cons.injEq]
      refine ⟨by simp, ?_⟩
      apply List.map_congr_left
      intro j hj
      have harg : i + 1 + j = i + (j + 1) := by omega
      simp [Function.comp, harg]

/-- C7: the slave-state controller retries a requested transition up to the
fixed bound of 5 attempts and returns a terminal failure when all are
exhausted; within any single attempt requesting OPERATIONAL whose first
check fails with the slave observed in PRE-OP, the request trace is exactly
OPERATIONAL, then one SAFE-OP escalation, then one OPERATIONAL re-request
when the SAFE-OP check succeeds (and no re-request when it fails): one
escalation before the second OPERATIONAL request, never a third. -/
theorem claim_C7_state_retry_escalation (desired : Nat) (env : Nat → AttemptEnv) :
    ((soem_interface_set_ethercat_state desired env).2.1 ≤ 5) ∧
    ((soem_interface_set_ethercat_state desired env).1 = false →
      (soem_interface_set_ethercat_state desired env).2.1 = 5) ∧
    ((soem_interface_set_ethercat_state desired env).2.2 =
      (List.range (soem_interface_set_ethercat_state desired env).2.1).map
        (fun j => (attempt_requests desired (env j)).2)) ∧
    (∀ e : AttemptEnv,
      ¬ (e.checkOk = true ∧ e.observed &&& 0x0F = EC_STATE_OPERATIONAL) →
      e.observed &&& 0x0F = EC_STATE_PRE_OP →
      (attempt_requests EC_STATE_OPERATIONAL e).2 =
        (if e.safeOpOk = true then
          [EC_STATE_OPERATIONAL, EC_STATE_SAFE_OP, EC_STATE_OPERATIONAL]
         else [EC_STATE_OPERATIONAL, EC_STATE_SAFE_OP]) ∧
      ((attempt_requests EC_STATE_OPERATIONAL e).2.count EC_STATE_SAFE_OP = 1 ∧
       (attempt_requests EC_STATE_OPERATIONAL e).2.count EC_STATE_OPERATIONAL ≤ 2)) := by
  have hb := set_state_aux_bound desired env 5 0
  refine ⟨hb.1, hb.2.1, ?_, ?_⟩
  · have := hb.2.2
    simpa using this
  · intro e hfail hpre
    have htr : (attempt_requests EC_STATE_OPERATIONAL e).2 =
        (if e.safeOpOk = true then
          [EC_STATE_OPERATIONAL, EC_STATE_SAFE_OP, EC_STATE_OPERATIONAL]
         else [EC_STATE_OPERATIONAL, EC_STATE_SAFE_OP]) := by
      unfold attempt_requests
      rw [if_neg hfail, if_pos ⟨rfl, hpre⟩]
      by_cases hs : e.safeOpOk = true
      · by_cases ho : e.operOk = true <;> simp [hs, ho]
      · simp [hs]
    refine ⟨htr, ?_⟩
    rw [htr]
    by_cases hs : e.safeOpOk = true <;>
      simp [hs, EC_STATE_OPERATIONAL, EC_STATE_SAFE_OP]

/-- Witness for C7 with an environment whose first check fails observing
PRE-OP and whose SAFE-OP escalation succeeds: the attempt issues exactly
OPERATIONAL, SAFE-OP, OPERATIONAL. -/
theorem claim_C7_state_retry_escalation_witness :
    (attempt_requests EC_STATE_OPERATIONAL ⟨false, 0x02, true, true⟩).2 =
      [EC_STATE_OPERATIONAL, EC_STATE_SAFE_OP, EC_STATE_OPERATIONAL] := by
  have h := ((claim_C7_state_retry_escalation EC_STATE_OPERATIONAL
    (fun _ => ⟨false, 0x02, true, true⟩)).2.2.2
    ⟨false, 0x02, true, true⟩ (by decide) (by decide)).1
  simpa using h

/-- The drive-side object-dictionary state touched by PDO mapping
negotiation: the value of the assignment object's subindex 0
(pdo_assign_idx:00), the mapping object's entry count (pdo_map_idx:00), and
the mapping entries (pdo_map_idx:i for subindex i of at least 1). -/
structure Drive where
  assign : Nat
  count : Nat
  entries : Nat → Nat

/-- One SDO transaction issued by the negotiation, identified by the object
it addresses (the slave index and the two object indices are fixed
parameters of the call): a read of the mapping entry count, a read of a
mapping entry, or a write of the assignment object, the entry count, or a
mapping entry. -/
inductive SdoEv where
  | readCount
  | readEntry (sub : Nat)
  | writeAssign (v : Nat)
  | writeCount (v : Nat)
  | writeEntry (sub : Nat) (v : Nat)
deriving DecidableEq

/-- Classification of an SDO transaction as a write. -/
def SdoEv.isWrite : SdoEv → Bool
  | .readCount => false
  | .readEntry _ => false
  | _ => true

/-- Outcome of a PDO mapping negotiation call: the mapping already matched
and nothing was written (unchanged, return 0 at
soem_interface_backup.c:585), the full rewrite sequence was applied and
verified (return 0 at line 648), or an SDO step or the verification failed
(return -1). -/
inductive NegOutcome where
  | unchanged
  | applied
  | error
deriving DecidableEq

/-- Result of a PDO mapping negotiation call: outcome, final drive state,
the ordered SDO transaction trace, and the slave states requested through
ec_writestate during the call. -/
structure NegResult where
  outcome : NegOutcome
  drive : Drive
  trace : List SdoEv
  stateReqs : List Nat

/-- Read-back comparison loop of soem_interface_configure_pdo_mapping_enhanced
(soem_interface_backup.c:570-580): reads entry subindex i+1 for each index i
of the list, stopping at the first failed read or mismatching entry. `ok k`
tells whether SDO transaction number k succeeds; returns (all entries read
and equal, next transaction number, read trace). -/
def entriesMatchAux (ok : Nat → Bool) (target : List Nat) (d : Drive) :
    Nat → List Nat → Bool × Nat × List SdoEv
  | k, [] => (true, k, [])
  | k, i :: rest =>
    if ok k = false then (false, k + 1, [SdoEv.readEntry (i + 1)])
    else if d.entries (i + 1) = target.getD i 0 then
      let r := entriesMatchAux ok target d (k + 1) rest
      (r.1, r.2.1, SdoEv.readEntry (i + 1) :: r.2.2)
    else (false, k + 1, [SdoEv.readEntry (i + 1)])

/-- Entry-write loop of soem_interface_configure_pdo_mapping_enhanced
(soem_interface_backup.c:607-614): writes value v of the list to entry
subindex i+1, aborting at the first failed write. Returns (success, next
transaction number, drive state, write trace). -/
def writeEntriesAux (ok : Nat → Bool) :
    List Nat → Nat → Nat → Drive → Bool × Nat × Drive × List SdoEv
  | [], _, k, d => (true, k, d, [])
  | v :: rest, i, k, d =>
    if ok k = false then (false, k + 1, d, [SdoEv.writeEntry (i + 1) v])
    else
      let d' : Drive :=
        { d with entries := fun j => if j = i + 1 then v else d.entries j }
      let r := writeEntriesAux ok rest (i + 1) (k + 1) d'
      (r.1, r.2.1, r.2.2.1, SdoEv.writeEntry (i + 1) v :: r.2.2.2)

/-- The write events the entry-write loop issues for values `l` starting at
0-based index `i`. -/
def entryEvsFrom (i : Nat) : List Nat → List SdoEv
  | [] => []
  | v :: rest => SdoEv.writeEntry (i + 1) v :: entryEvsFrom (i + 1) rest

/-- The complete ordered SDO write sequence of a full PDO mapping rewrite:
disable the assignment object, zero the entry count, write the N entries to
subindices 1..N, write N to the entry count, re-enable the assignment
object with the constant 1. -/
def fullWriteSeq (target : List Nat) : List SdoEv :=
  SdoEv.writeAssign 0 :: SdoEv.writeCount 0 :: entryEvsFrom 0 target ++
    [SdoEv.writeCount target.length, SdoEv.writeAssign 1]

/-- Steps 2-7 of soem_interface_configure_pdo_mapping_enhanced
(soem_interface_backup.c:589-648): disable the assignment object, disable
the mapping, write the entries, enable the mapping with the target count,
write the constant 1 (original_assign_val) to the assignment object, then
read the count back and fail unless it equals the target count. Any failed
SDO transaction aborts immediately with an error and no further
transaction. -/
def negotiate_writes (ok : Nat → Bool) (target : List Nat) (k : Nat) (d : Drive) :
    NegOutcome × Drive × List SdoEv :=
  if ok k = false then (.error, d, [SdoEv.writeAssign 0])
  else
    let d1 : Drive := { d with assign := 0 }
    if ok (k + 1) = false then
      (.error, d1, [SdoEv.writeAssign 0, SdoEv.writeCount 0])
    else
      let d2 : Drive := { d1 with count := 0 }
      let w := writeEntriesAux ok target 0 (k + 2) d2
      if w.1 = false then
        (.error, w.2.2.1, SdoEv.writeAssign 0 :: SdoEv.writeCount 0 :: w.2.2.2)
      else
        let k3 := w.2.1
        let d3 := w.2.2.1
        if ok k3 = false then
          (.error, d3, SdoEv.writeAssign 0 :: SdoEv.writeCount 0 :: w.2.2.2 ++
            [SdoEv.writeCount target.length])
        else
          let d4 : Drive := { d3 with count := target.length }
          if ok (k3 + 1) = false then
            (.error, d4, SdoEv.writeAssign 0 :: SdoEv.writeCount 0 :: w.2.2.2 ++
              [SdoEv.writeCount target.length, SdoEv.writeAssign 1])
          else
            let d5 : Drive := { d4 with assign := 1 }
            if ok (k3 + 2) = false then
              (.error, d5, SdoEv.writeAssign 0 :: SdoEv.writeCount 0 :: w.2.2.2 ++
                [SdoEv.writeCount target.length, SdoEv.writeAssign 1,
                 SdoEv.readCount])
            else if d5.count = target.length then
              (.applied, d5, SdoEv.writeAssign 0 :: SdoEv.writeCount 0 :: w.2.2.2 ++
                [SdoEv.writeCount target.length, SdoEv.writeAssign 1,
                 SdoEv.readCount])
            else
              (.error, d5, SdoEv.writeAssign 0 :: SdoEv.writeCount 0 :: w.2.2.2 ++
                [SdoEv.writeCount target.length, SdoEv.writeAssign 1,
                 SdoEv.readCount])

/-- Embedding of soem_interface_configure_pdo_mapping_enhanced
(soem_interface_backup.c:545-649). `senv` drives the embedded
soem_interface_set_ethercat_state call that forces PRE-OP at line 556;
`ok k` tells whether SDO transaction number k of this call succeeds.
Transaction 0 is the initial entry-count read; if it succeeds and the count
and every read-back entry match the target list the call returns unchanged
with no write; otherwise the full rewrite sequence runs. -/
def soem_interface_configure_pdo_mapping_enhanced
    (senv : Nat → AttemptEnv) (ok : Nat → Bool) (target : List Nat)
    (d : Drive) : NegResult :=
  let s := soem_interface_set_ethercat_state EC_STATE_PRE_OP senv
  let reqs := s.2.2.flatten
  if s.1 = false then
    { outcome := .error, drive := d, trace := [], stateReqs := reqs }
  else if ok 0 = false then
    let w := negotiate_writes ok target 1 d
    { outcome := w.1, drive := w.2.1, trace := SdoEv.readCount :: w.2.2,
      stateReqs := reqs }
  else
    let m := if d.count = target.length then
        entriesMatchAux ok target d 1 (List.range d.count)
      else (false, 1, ([] : List SdoEv))
    if m.1 = true then
      { outcome := .unchanged, drive := d,
        trace := SdoEv.readCount :: m.2.2, stateReqs := reqs }
    else
      let w := negotiate_writes ok target m.2.1 d
      { outcome := w.1, drive := w.2.1,
        trace := (SdoEv.readCount :: m.2.2) ++ w.2.2, stateReqs := reqs }

/-- The RxPDO mapping list of the source (soem_interface_backup.c:49-54). -/
def rxpdo_mapping : List Nat := [0x60400010, 0x60600008, 0x60710010, 0x607A0020]

/-- The TxPDO mapping list of the source (soem_interface_backup.c:56-61). -/
def txpdo_mapping : List Nat := [0x60410010, 0x60610008, 0x60640020, 0x60770010]

/-- Embedding of configure_somanet_pdo_mapping_enhanced
(soem_interface_backup.c:702-740): request INIT, then PRE-OP, probe the
assignment object (returning success with the default mapping when the
probe read fails), then run both negotiations, tolerating their failures.
Returns the overall success flag and every slave state requested through
ec_writestate during the call, the embedded negotiations included. -/
def configure_somanet_pdo_mapping_enhanced
    (senvInit senvPre : Nat → AttemptEnv) (okProbe : Bool)
    (senvRx : Nat → AttemptEnv) (okRx : Nat → Bool)
    (senvTx : Nat → AttemptEnv) (okTx : Nat → Bool)
    (dRx dTx : Drive) : Bool × List Nat :=
  let sInit := soem_interface_set_ethercat_state EC_STATE_INIT senvInit
  if sInit.1 = false then (false, sInit.2.2.flatten)
  else
    let sPre := soem_interface_set_ethercat_state EC_STATE_PRE_OP senvPre
    if sPre.1 = false then (false, sInit.2.2.flatten ++ sPre.2.2.flatten)
    else if okProbe = false then
      (true, sInit.2.2.flatten ++ sPre.2.2.flatten)
    else
      let rRx := soem_interface_configure_pdo_mapping_enhanced senvRx okRx
        rxpdo_mapping dRx
      let rTx := soem_interface_configure_pdo_mapping_enhanced senvTx okTx
        txpdo_mapping dTx
      (true, sInit.2.2.flatten ++ sPre.2.2.flatten ++ rRx.stateReqs ++ rTx.stateReqs)

theorem entriesMatchAux_all_true (ok : Nat → Bool) (target : List Nat)
    (d : Drive) (hok : ∀ k, ok k = true) :
    ∀ (l : List Nat) (k : Nat),
      (∀ i ∈ l, d.entries (i + 1) = target.getD i 0) →
      (entriesMatchAux ok target d k l).1 = true := by
  intro l
  induction l with
  | nil => intro k _; simp [entriesMatchAux]
  | cons a rest ih =>
    intro k hm
    have ha := hm a (by simp)
    simp [entriesMatchAux, hok k, ha]
    exact ih (k + 1) (fun j hj => hm j (by simp [hj]))

theorem entriesMatchAux_cons (ok : Nat → Bool) (target : List Nat) (d : Drive)
    (k a : Nat) (rest : List Nat) :
    entriesMatchAux ok target d k (a :: rest) =
      if ok k = false then (false, k + 1, [SdoEv.readEntry (a + 1)])
      else if d.entries (a + 1) = target.getD a 0 then
        ((entriesMatchAux ok target d (k + 1) rest).1,
         (entriesMatchAux ok target d (k + 1) rest).2.1,
         SdoEv.readEntry (a + 1) :: (entriesMatchAux ok target d (k + 1) rest).2.2)
      else (false, k + 1, [SdoEv.readEntry (a + 1)]) := rfl

theorem entriesMatchAux_true_of (ok : Nat → Bool) (target : List Nat)
    (d : Drive) :
    ∀ (l : List Nat) (k : Nat),
      (entriesMatchAux ok target d k l).1 = true →
      ∀ i ∈ l, d.entries (i + 1) = target.getD i 0 := by
  intro l
  induction l with
  | nil => intro k _ i hi; simp at hi
  | cons a rest ih =>
    intro k h i hi
    by_cases hk : ok k = false
    · rw [entriesMatchAux_cons, if_pos hk] at h
      simp at h
    · by_cases he : d.entries (a + 1) = target.getD a 0
      · rw [entriesMatchAux_cons, if_neg hk, if_pos he] at h
        rcases List.mem_cons.mp hi with rfl | hmem
        · exact he
        · exact ih (k + 1) h i hmem
      · rw [entriesMatchAux_cons, if_neg hk, if_neg he] at h
        simp at h

theorem entriesMatchAux_no_writes (ok : Nat → Bool) (target : List Nat)
    (d : Drive) :
    ∀ (l : List Nat) (k : Nat),
      ((entriesMatchAux ok target d k l).2.2).filter SdoEv.isWrite = [] := by
  intro l
  induction l with
  | nil => intro k; simp [entriesMatchAux]
  | cons a rest ih =>
    intro k
    by_cases hk : ok k = false
    · rw [entriesMatchAux_cons, if_pos hk]
      simp [SdoEv.isWrite]
    · by_cases he : d.entries (a + 1) = target.getD a 0
      · rw [entriesMatchAux_cons, if_neg hk, if_pos he]
        simp [SdoEv.isWrite, ih (k + 1)]
      · rw [entriesMatchAux_cons, if_neg hk, if_neg he]
        simp [SdoEv.isWrite]

theorem entryEvsFrom_length : ∀ (l : List Nat) (i : Nat),
    (entryEvsFrom i l).length = l.length := by
  intro l
  induction l with
  | nil => intro i; simp [entryEvsFrom]
  | cons v rest ih => intro i; simp [entryEvsFrom, ih]

theorem entryEvsFrom_isWrite : ∀ (l : List Nat) (i : Nat),
    ∀ e ∈ entryEvsFrom i l, SdoEv.isWrite e = true := by
  intro l
  induction l with
  | nil => intro i e he; simp [entryEvsFrom] at he
  | cons v rest ih =>
    intro i e he
    rcases List.mem_cons.mp he with rfl | hmem
    · rfl
    · exact ih (i + 1) e hmem

theorem entryEvsFrom_take_filter (l : List Nat) (i m : Nat) :
    ((entryEvsFrom i l).take m).filter SdoEv.isWrite = (entryEvsFrom i l).take m :=
  List.filter_eq_self.mpr
    (fun e he => entryEvsFrom_isWrite l i e (List.take_subset _ _ he))

theorem entryEvsFrom_filter (l : List Nat) (i : Nat) :
    (entryEvsFrom i l).filter SdoEv.isWrite = entryEvsFrom i l :=
  List.filter_eq_self.mpr (fun e he => entryEvsFrom_isWrite l i e he)

theorem fullWriteSeq_filter (target : List Nat) :
    (fullWriteSeq target).filter SdoEv.isWrite = fullWriteSeq target := by
  simp [fullWriteSeq, List.filter_append, entryEvsFrom_filter, SdoEv.isWrite]

theorem writeEntriesAux_allOk (ok : Nat → Bool) (hok : ∀ k, ok k = true) :
    ∀ (l : List Nat) (i k : Nat) (d : Drive),
      (writeEntriesAux ok l i k d).1 = true ∧
      (writeEntriesAux ok l i k d).2.2.2 = entryEvsFrom i l ∧
      (writeEntriesAux ok l i k d).2.2.1.count = d.count ∧
      (writeEntriesAux ok l i k d).2.2.1.assign = d.assign ∧
      (∀ j, j ≤ i → (writeEntriesAux ok l i k d).2.2.1.entries j = d.entries j) ∧
      (∀ t, t < l.length →
        (writeEntriesAux ok l i k d).2.2.1.entries (i + t + 1) = l.getD t 0) := by
  intro l
  induction l with
  | nil =>
    intro i k d
    refine ⟨rfl, rfl, rfl, rfl, fun j _ => rfl, ?_⟩
    intro t ht; simp at ht
  | cons v rest ih =>
    intro i k d
    have hstep : writeEntriesAux ok (v :: rest) i k d =
        ((writeEntriesAux ok rest (i + 1) (k + 1)
            { d with entries := fun j => if j = i + 1 then v else d.entries j }).1,
         (writeEntriesAux ok rest (i + 1) (k + 1)
            { d with entries := fun j => if j = i + 1 then v else d.entries j }).2.1,
         (writeEntriesAux ok rest (i + 1) (k + 1)
            { d with entries := fun j => if j = i + 1 then v else d.entries j }).2.2.1,
         SdoEv.writeEntry (i + 1) v ::
           (writeEntriesAux ok rest (i + 1) (k + 1)
             { d with entries := fun j => if j = i + 1 then v else d.entries j }).2.2.2) := by
      simp [writeEntriesAux, hok k]
    obtain ⟨h1, h2, h3, h4, h5, h6⟩ := ih (i + 1) (k + 1)
      { d with entries := fun j => if j = i + 1 then v else d.entries j }
    rw [hstep]
    dsimp only
    refine ⟨h1, by rw [h2]; rfl, h3, h4, ?_, ?_⟩
    · intro j hj
      rw [h5 j (by omega)]
      simp only
      rw [if_neg (by omega)]
    · intro t ht
      cases t with
      | zero =>
        have := h5 (i + 1) (le_refl _)
        rw [show i + 0 + 1 = i + 1 by omega, this]
        simp
      | succ s =>
        have hs := h6 s (by simpa using ht)
        rw [show i + (s + 1) + 1 = i + 1 + s + 1 by omega, hs]
        rfl

theorem writeEntriesAux_general (ok : Nat → Bool) :
    ∀ (l : List Nat) (i k : Nat) (d : Drive),
      (writeEntriesAux ok l i k d).2.2.1.count = d.count ∧
      (writeEntriesAux ok l i k d).2.2.1.assign = d.assign ∧
      (∃ m, m ≤ l.length ∧
        (writeEntriesAux ok l i k d).2.2.2 = (entryEvsFrom i l).take m) ∧
      ((writeEntriesAux ok l i k d).1 = true →
        (writeEntriesAux ok l i k d).2.2.2 = entryEvsFrom i l) := by
  intro l
  induction l with
  | nil =>
    intro i k d
    exact ⟨rfl, rfl, ⟨0, by simp, by simp [writeEntriesAux]⟩, fun _ => rfl⟩
  | cons v rest ih =>
    intro i k d
    by_cases hk : ok k = false
    · refine ⟨by simp [writeEntriesAux, hk], by simp [writeEntriesAux, hk],
        ⟨1, by simp, by simp [writeEntriesAux, hk, entryEvsFrom]⟩, ?_⟩
      intro h; simp [writeEntriesAux, hk] at h
    · have hstep : writeEntriesAux ok (v :: rest) i k d =
          ((writeEntriesAux ok rest (i + 1) (k + 1)
              { d with entries := fun j => if j = i + 1 then v else d.entries j }).1,
           (writeEntriesAux ok rest (i + 1) (k + 1)
              { d with entries := fun j => if j = i + 1 then v else d.entries j }).2.1,
           (writeEntriesAux ok rest (i + 1) (k + 1)
              { d with entries := fun j => if j = i + 1 then v else d.entries j }).2.2.1,
           SdoEv.writeEntry (i + 1) v ::
             (writeEntriesAux ok rest (i + 1) (k + 1)
               { d with entries := fun j => if j = i + 1 then v else d.entries j }).2.2.2) := by
        simp [writeEntriesAux, hk]
      obtain ⟨h1, h2, ⟨m, hm, htr⟩, h4⟩ := ih (i + 1) (k + 1)
        { d with entries := fun j => if j = i + 1 then v else d.entries j }
      rw [hstep]
      dsimp only
      refine ⟨h1, h2, ⟨m + 1, by simpa using hm, ?_⟩, ?_⟩
      · rw [htr]; rfl
      · intro h
        rw [h4 h]; rfl

theorem negotiate_writes_allOk (ok : Nat → Bool) (target : List Nat) (k : Nat)
    (d : Drive) (hok : ∀ n, ok n = true) :
    (negotiate_writes ok target k d).1 = .applied ∧
    (negotiate_writes ok target k d).2.1.count = target.length ∧
    (negotiate_writes ok target k d).2.1.assign = 1 ∧
    (∀ t, t < target.length →
      (negotiate_writes ok target k d).2.1.entries (t + 1) = target.getD t 0) ∧
    (negotiate_writes ok target k d).2.2 =
      fullWriteSeq target ++ [SdoEv.readCount] := by
  obtain ⟨h1, h2, h3, h4, h5, h6⟩ := writeEntriesAux_allOk ok hok target 0 (k + 2)
    { { d with assign := 0 } with count := 0 }
  have hstep : negotiate_writes ok target k d =
      (.applied,
       { { (writeEntriesAux ok target 0 (k + 2)
              { { d with assign := 0 } with count := 0 }).2.2.1
            with count := target.length } with assign := 1 },
       SdoEv.writeAssign 0 :: SdoEv.writeCount 0 ::
         (writeEntriesAux ok target 0 (k + 2)
            { { d with assign := 0 } with count := 0 }).2.2.2 ++
         [SdoEv.writeCount target.length, SdoEv.writeAssign 1,
          SdoEv.readCount]) := by
    simp [negotiate_writes, hok, h1]
  rw [hstep]
  refine ⟨rfl, rfl, rfl, ?_, ?_⟩
  · intro t ht
    have := h6 t ht
    simpa using this
  · rw [h2]
    simp [fullWriteSeq]

theorem negotiate_writes_error (ok : Nat → Bool) (target : List Nat) (k : Nat)
    (d : Drive) :
    (negotiate_writes ok target k d).1 = .error →
    (∃ rest, fullWriteSeq target =
      ((negotiate_writes ok target k d).2.2.filter SdoEv.isWrite) ++ rest) ∧
    ((negotiate_writes ok target k d).2.1 = d ∨
     (negotiate_writes ok target k d).2.1.assign = 0 ∨
     SdoEv.writeAssign 1 ∈ (negotiate_writes ok target k d).2.2) := by
  intro herr
  by_cases hk : ok k = false
  · have hstep : negotiate_writes ok target k d =
        (.error, d, [SdoEv.writeAssign 0]) := by
      simp [negotiate_writes, hk]
    rw [hstep]
    refine ⟨⟨SdoEv.writeCount 0 :: entryEvsFrom 0 target ++
      [SdoEv.writeCount target.length, SdoEv.writeAssign 1], ?_⟩, Or.inl rfl⟩
    simp [fullWriteSeq, SdoEv.isWrite]
  · by_cases hk1 : ok (k + 1) = false
    · have hstep : negotiate_writes ok target k d =
          (.error, { d with assign := 0 },
           [SdoEv.writeAssign 0, SdoEv.writeCount 0]) := by
        simp [negotiate_writes, hk, hk1]
      rw [hstep]
      refine ⟨⟨entryEvsFrom 0 target ++
        [SdoEv.writeCount target.length, SdoEv.writeAssign 1], ?_⟩,
        Or.inr (Or.inl rfl)⟩
      simp [fullWriteSeq, SdoEv.isWrite]
    · obtain ⟨hc, ha, ⟨m, hm, htr⟩, hfull⟩ := writeEntriesAux_general ok target 0
        (k + 2) { { d with assign := 0 } with count := 0 }
      by_cases hw : (writeEntriesAux ok target 0 (k + 2)
          { { d with assign := 0 } with count := 0 }).1 = false
      · have hstep : negotiate_writes ok target k d =
            (.error,
             (writeEntriesAux ok target 0 (k + 2)
                { { d with assign := 0 } with count := 0 }).2.2.1,
             SdoEv.writeAssign 0 :: SdoEv.writeCount 0 ::
               (writeEntriesAux ok target 0 (k + 2)
                  { { d with assign := 0 } with count := 0 }).2.2.2) := by
          simp [negotiate_writes, hk, hk1, hw]
        rw [hstep]
        constructor
        · refine ⟨(entryEvsFrom 0 target).drop m ++
            [SdoEv.writeCount target.length, SdoEv.writeAssign 1], ?_⟩
          have hfil : ((SdoEv.writeAssign 0 :: SdoEv.writeCount 0 ::
              (entryEvsFrom 0 target).take m) : List SdoEv).filter SdoEv.isWrite =
              SdoEv.writeAssign 0 :: SdoEv.writeCount 0 ::
                (entryEvsFrom 0 target).take m := by
            simp only [List.filter_cons]
            rw [entryEvsFrom_take_filter]
            rfl
          rw [htr, hfil]
          simp only [fullWriteSeq, List.cons_append, List.append_assoc]
          rw [← List.append_assoc, List.take_append_drop]
        · right; left
          simpa using ha
      · simp only [Bool.not_eq_false] at hw
        have htrf := hfull hw
        by_cases hk3 : ok ((writeEntriesAux ok target 0 (k + 2)
            { { d with assign := 0 } with count := 0 }).2.1) = false
        · have hstep : negotiate_writes ok target k d =
              (.error,
               (writeEntriesAux ok target 0 (k + 2)
                  { { d with assign := 0 } with count := 0 }).2.2.1,
               SdoEv.writeAssign 0 :: SdoEv.writeCount 0 ::
                 (writeEntriesAux ok target 0 (k + 2)
                    { { d with assign := 0 } with count := 0 }).2.2.2 ++
                 [SdoEv.writeCount target.length]) := by
            simp [negotiate_writes, hk, hk1, hw, hk3]
          rw [hstep]
          constructor
          · refine ⟨[SdoEv.writeAssign 1], ?_⟩
            rw [htrf]
            have hfil : ((SdoEv.writeAssign 0 :: SdoEv.writeCount 0 ::
                entryEvsFrom 0 target ++ [SdoEv.writeCount target.length]) :
                  List SdoEv).filter SdoEv.isWrite =
                SdoEv.writeAssign 0 :: SdoEv.writeCount 0 ::
                  entryEvsFrom 0 target ++ [SdoEv.writeCount target.length] := by
              simp only [List.filter_cons, List.filter_append]
              rw [entryEvsFrom_filter]
              rfl
            rw [hfil]
            simp [fullWriteSeq, List.append_assoc]
          · right; left
            simpa using ha
        · by_cases hk4 : ok ((writeEntriesAux ok target 0 (k + 2)
              { { d with assign := 0 } with count := 0 }).2.1 + 1) = false
          · have hstep : negotiate_writes ok target k d =
                (.error,
                 { (writeEntriesAux ok target 0 (k + 2)
                      { { d with assign := 0 } with count := 0 }).2.2.1
                    with count := target.length },
                 SdoEv.writeAssign 0 :: SdoEv.writeCount 0 ::
                   (writeEntriesAux ok target 0 (k + 2)
                      { { d with assign := 0 } with count := 0 }).2.2.2 ++
                   [SdoEv.writeCount target.length, SdoEv.writeAssign 1]) := by
              simp [negotiate_writes, hk, hk1, hw, hk3, hk4]
            rw [hstep]
            constructor
            · refine ⟨[], ?_⟩
              rw [htrf]
              have hfil : ((SdoEv.writeAssign 0 :: SdoEv.writeCount 0 ::
                  entryEvsFrom 0 target ++
                  [SdoEv.writeCount target.length, SdoEv.writeAssign 1]) :
                    List SdoEv).filter SdoEv.isWrite =
                  SdoEv.writeAssign 0 :: SdoEv.writeCount 0 ::
                    entryEvsFrom 0 target ++
                    [SdoEv.writeCount target.length, SdoEv.writeAssign 1] := by
                simp only [List.filter_cons, List.filter_append]
                rw [entryEvsFrom_filter]
                rfl
              rw [hfil]
              simp [fullWriteSeq]
            · right; left
              simpa using ha
          · by_cases hk5 : ok ((writeEntriesAux ok target 0 (k + 2)
                { { d with assign := 0 } with count := 0 }).2.1 + 2) = false
            · have hstep : negotiate_writes ok target k d =
                  (.error,
                   { { (writeEntriesAux ok target 0 (k + 2)
                          { { d with assign := 0 } with count := 0 }).2.2.1
                        with count := target.length } with assign := 1 },
                   SdoEv.writeAssign 0 :: SdoEv.writeCount 0 ::
                     (writeEntriesAux ok target 0 (k + 2)
                        { { d with assign := 0 } with count := 0 }).2.2.2 ++
                     [SdoEv.writeCount target.length, SdoEv.writeAssign 1,
                      SdoEv.readCount]) := by
                simp [negotiate_writes, hk, hk1, hw, hk3, hk4, hk5]
              rw [hstep]
              constructor
              · refine ⟨[], ?_⟩
                rw [htrf]
                have hfil : ((SdoEv.writeAssign 0 :: SdoEv.writeCount 0 ::
                    entryEvsFrom 0 target ++
                    [SdoEv.writeCount target.length, SdoEv.writeAssign 1,
                     SdoEv.readCount]) : List SdoEv).filter SdoEv.isWrite =
                    SdoEv.writeAssign 0 :: SdoEv.writeCount 0 ::
                      entryEvsFrom 0 target ++
                      [SdoEv.writeCount target.length, SdoEv.writeAssign 1] := by
                  simp only [List.filter_cons, List.filter_append]
                  rw [entryEvsFrom_filter]
                  rfl
                rw [hfil]
                simp [fullWriteSeq]
              · right; right
                rw [htrf]
                simp
            · have happ : (negotiate_writes ok target k d).1 = .applied := by
                simp [negotiate_writes, hk, hk1, hw, hk3, hk4, hk5]
              rw [happ] at herr
              exact absurd herr (by decide)

theorem negotiate_unchanged (senv : Nat → AttemptEnv) (ok : Nat → Bool)
    (target : List Nat) (d : Drive)
    (hset : (soem_interface_set_ethercat_state EC_STATE_PRE_OP senv).1 = true)
    (hok : ∀ n, ok n = true)
    (hcnt : d.count = target.length)
    (hent : ∀ i, i < target.length → d.entries (i + 1) = target.getD i 0) :
    (soem_interface_configure_pdo_mapping_enhanced senv ok target d).outcome
        = .unchanged ∧
    (soem_interface_configure_pdo_mapping_enhanced senv ok target
        d).trace.filter SdoEv.isWrite = [] := by
  have hm : (entriesMatchAux ok target d 1 (List.range target.length)).1 = true := by
    apply entriesMatchAux_all_true ok target d hok
    intro i hi
    exact hent i (List.mem_range.mp hi)
  have hstep : soem_interface_configure_pdo_mapping_enhanced senv ok target d =
      { outcome := .unchanged, drive := d,
        trace := SdoEv.readCount ::
          (entriesMatchAux ok target d 1 (List.range target.length)).2.2,
        stateReqs :=
          (soem_interface_set_ethercat_state EC_STATE_PRE_OP senv).2.2.flatten } := by
    simp [soem_interface_configure_pdo_mapping_enhanced, hset, hok 0, hcnt, hm]
  rw [hstep]
  refine ⟨rfl, ?_⟩
  simp only [List.filter_cons]
  rw [entriesMatchAux_no_writes]
  rfl

theorem negotiate_allOk_drive (senv : Nat → AttemptEnv) (ok : Nat → Bool)
    (target : List Nat) (d : Drive)
    (hset : (soem_interface_set_ethercat_state EC_STATE_PRE_OP senv).1 = true)
    (hok : ∀ n, ok n = true) :
    (soem_interface_configure_pdo_mapping_enhanced senv ok target d).outcome
        ≠ .error →
    (soem_interface_configure_pdo_mapping_enhanced senv ok target d).drive.count
        = target.length ∧
    (∀ t, t < target.length →
      (soem_interface_configure_pdo_mapping_enhanced senv ok target
          d).drive.entries (t + 1) = target.getD t 0) := by
  intro hne
  by_cases hcnt : d.count = target.length
  · by_cases hm : (entriesMatchAux ok target d 1 (List.range target.length)).1 = true
    · have hstep : soem_interface_configure_pdo_mapping_enhanced senv ok target d =
          { outcome := .unchanged, drive := d,
            trace := SdoEv.readCount ::
              (entriesMatchAux ok target d 1 (List.range target.length)).2.2,
            stateReqs :=
              (soem_interface_set_ethercat_state EC_STATE_PRE_OP
                senv).2.2.flatten } := by
        simp [soem_interface_configure_pdo_mapping_enhanced, hset, hok 0, hcnt, hm]
      rw [hstep]
      refine ⟨hcnt, ?_⟩
      intro t ht
      exact entriesMatchAux_true_of ok target d (List.range target.length) 1 hm t
        (List.mem_range.mpr ht)
    · obtain ⟨hW1, hW2, hW3, hW4, hW5⟩ := negotiate_writes_allOk ok target
        (entriesMatchAux ok target d 1 (List.range target.length)).2.1 d hok
      have hstep : soem_interface_configure_pdo_mapping_enhanced senv ok target d =
          { outcome := (negotiate_writes ok target
              (entriesMatchAux ok target d 1 (List.range target.length)).2.1 d).1,
            drive := (negotiate_writes ok target
              (entriesMatchAux ok target d 1 (List.range target.length)).2.1 d).2.1,
            trace := (SdoEv.readCount ::
              (entriesMatchAux ok target d 1 (List.range target.length)).2.2) ++
              (negotiate_writes ok target
                (entriesMatchAux ok target d 1 (List.range target.length)).2.1 d).2.2,
            stateReqs :=
              (soem_interface_set_ethercat_state EC_STATE_PRE_OP
                senv).2.2.flatten } := by
        simp [soem_interface_configure_pdo_mapping_enhanced, hset, hok 0, hcnt, hm]
      rw [hstep]
      exact ⟨hW2, hW4⟩
  · obtain ⟨hW1, hW2, hW3, hW4, hW5⟩ := negotiate_writes_allOk ok target 1 d hok
    have hstep : soem_interface_configure_pdo_mapping_enhanced senv ok target d =
        { outcome := (negotiate_writes ok target 1 d).1,
          drive := (negotiate_writes ok target 1 d).2.1,
          trace := [SdoEv.readCount] ++ (negotiate_writes ok target 1 d).2.2,
          stateReqs :=
            (soem_interface_set_ethercat_state EC_STATE_PRE_OP
              senv).2.2.flatten } := by
      simp [soem_interface_configure_pdo_mapping_enhanced, hset, hok 0, hcnt]
    rw [hstep]
    exact ⟨hW2, hW4⟩

theorem negotiate_error_lift (ok : Nat → Bool) (target : List Nat) (k : Nat)
    (d : Drive) (pre : List SdoEv)
    (hpre : pre.filter SdoEv.isWrite = [])
    (herr : (negotiate_writes ok target k d).1 = .error) :
    (∃ rest, fullWriteSeq target =
      ((pre ++ (negotiate_writes ok target k d).2.2).filter SdoEv.isWrite) ++ rest) ∧
    ((negotiate_writes ok target k d).2.1 = d ∨
     (negotiate_writes ok target k d).2.1.assign = 0 ∨
     SdoEv.writeAssign 1 ∈ pre ++ (negotiate_writes ok target k d).2.2) := by
  obtain ⟨⟨rest, heq⟩, hdisj⟩ := negotiate_writes_error ok target k d herr
  refine ⟨⟨rest, ?_⟩, ?_⟩
  · rw [List.filter_append, hpre, List.nil_append]
    exact heq
  · rcases hdisj with h | h | h
    · exact Or.inl h
    · exact Or.inr (Or.inl h)
    · exact Or.inr (Or.inr (List.mem_append_right _ h))

theorem negotiate_mismatch_allOk (senv : Nat → AttemptEnv) (ok : Nat → Bool)
    (target : List Nat) (d : Drive)
    (hset : (soem_interface_set_ethercat_state EC_STATE_PRE_OP senv).1 = true)
    (hok : ∀ n, ok n = true)
    (hmis : ¬ (d.count = target.length ∧
      ∀ i, i < target.length → d.entries (i + 1) = target.getD i 0)) :
    (soem_interface_configure_pdo_mapping_enhanced senv ok target d).outcome
        = .applied ∧
    (soem_interface_configure_pdo_mapping_enhanced senv ok target
        d).trace.filter SdoEv.isWrite = fullWriteSeq target ∧
    (soem_interface_configure_pdo_mapping_enhanced senv ok target d).drive.count
        = target.length ∧
    (soem_interface_configure_pdo_mapping_enhanced senv ok target d).drive.assign
        = 1 := by
  by_cases hcnt : d.count = target.length
  · have hm : (entriesMatchAux ok target d 1 (List.range target.length)).1 = false := by
      by_contra hmt
      simp only [Bool.not_eq_false] at hmt
      exact hmis ⟨hcnt, fun i hi =>
        entriesMatchAux_true_of ok target d (List.range target.length) 1 hmt i
          (List.mem_range.mpr hi)⟩
    obtain ⟨hW1, hW2, hW3, hW4, hW5⟩ := negotiate_writes_allOk ok target
      (entriesMatchAux ok target d 1 (List.range target.length)).2.1 d hok
    have hstep : soem_interface_configure_pdo_mapping_enhanced senv ok target d =
        { outcome := (negotiate_writes ok target
            (entriesMatchAux ok target d 1 (List.range target.length)).2.1 d).1,
          drive := (negotiate_writes ok target
            (entriesMatchAux ok target d 1 (List.range target.length)).2.1 d).2.1,
          trace := (SdoEv.readCount ::
            (entriesMatchAux ok target d 1 (List.range target.length)).2.2) ++
            (negotiate_writes ok target
              (entriesMatchAux ok target d 1 (List.range target.length)).2.1 d).2.2,
          stateReqs :=
            (soem_interface_set_ethercat_state EC_STATE_PRE_OP
              senv).2.2.flatten } := by
      simp [soem_interface_configure_pdo_mapping_enhanced, hset, hok 0, hcnt, hm]
    rw [hstep]
    refine ⟨hW1, ?_, hW2, hW3⟩
    rw [List.filter_append, hW5, List.filter_append]
    have hp : ((SdoEv.readCount ::
        (entriesMatchAux ok target d 1 (List.range target.length)).2.2) :
          List SdoEv).filter SdoEv.isWrite = [] := by
      simp only [List.filter_cons]
      rw [entriesMatchAux_no_writes]
      rfl
    rw [hp, fullWriteSeq_filter]
    simp [SdoEv.isWrite]
  · obtain ⟨hW1, hW2, hW3, hW4, hW5⟩ := negotiate_writes_allOk ok target 1 d hok
    have hstep : soem_interface_configure_pdo_mapping_enhanced senv ok target d =
        { outcome := (negotiate_writes ok target 1 d).1,
          drive := (negotiate_writes ok target 1 d).2.1,
          trace := [SdoEv.readCount] ++ (negotiate_writes ok target 1 d).2.2,
          stateReqs :=
            (soem_interface_set_ethercat_state EC_STATE_PRE_OP
              senv).2.2.flatten } := by
      simp [soem_interface_configure_pdo_mapping_enhanced, hset, hok 0, hcnt]
    rw [hstep]
    refine ⟨hW1, ?_, hW2, hW3⟩
    rw [List.filter_append, hW5, List.filter_append, fullWriteSeq_filter]
    simp [SdoEv.isWrite]

/-- The transport environment used by the concrete counterexamples and
witnesses: every state check succeeds with the slave observed in PRE-OP. -/
def senvPreOpOk : Nat → AttemptEnv := fun _ => ⟨true, 0x02, true, true⟩

/-- C4 counterexample: on a drive whose assignment object originally holds
the nonzero value 2 and whose mapping does not match the one-entry target
list, the rewrite sequence ends by writing the constant 1 to the assignment
object, not the original value 2: no SDO write of the value 2 to the
assignment object ever occurs, so the claim that the sequence restores the
assignment object to its original nonzero value is false. -/
theorem claim_C4_counterexample :
    (⟨2, 0, fun _ => 0⟩ : Drive).assign = 2 ∧
    (soem_interface_configure_pdo_mapping_enhanced senvPreOpOk (fun _ => true)
        [0x60400010] ⟨2, 0, fun _ => 0⟩).outcome = .applied ∧
    (soem_interface_configure_pdo_mapping_enhanced senvPreOpOk (fun _ => true)
        [0x60400010] ⟨2, 0, fun _ => 0⟩).trace =
      [SdoEv.readCount, SdoEv.writeAssign 0, SdoEv.writeCount 0,
       SdoEv.writeEntry 1 0x60400010, SdoEv.writeCount 1, SdoEv.writeAssign 1,
       SdoEv.readCount] ∧
    SdoEv.writeAssign 2 ∉
      (soem_interface_configure_pdo_mapping_enhanced senvPreOpOk (fun _ => true)
        [0x60400010] ⟨2, 0, fun _ => 0⟩).trace := by
  refine ⟨rfl, by decide, by decide, by decide⟩

/-- C4 (amended): when the current mapping does not match the target list
and the transport transactions succeed, the negotiation performs exactly the
ordered SDO write sequence: 0 to the assignment object, 0 to the mapping
entry count, the N target entries to subindices 1..N in order, N to the
entry count, then the constant 1 to the assignment object (the code assumes
the original assignment value was 1 rather than reading and restoring it);
it then reads the entry count back and succeeds exactly when it equals N.
Any failed SDO step aborts with an error after a prefix of that write
sequence with no reverting write, leaving the drive untouched, or its
assignment object disabled (0), unless the failure happened at or after the
re-enable write. -/
theorem claim_C4_mapping_rewrite (senv : Nat → AttemptEnv) (ok : Nat → Bool)
    (target : List Nat) (d : Drive)
    (hset : (soem_interface_set_ethercat_state EC_STATE_PRE_OP senv).1 = true) :
    ((∀ n, ok n = true) →
      ¬ (d.count = target.length ∧
         ∀ i, i < target.length → d.entries (i + 1) = target.getD i 0) →
      (soem_interface_configure_pdo_mapping_enhanced senv ok target d).outcome
          = .applied ∧
      (soem_interface_configure_pdo_mapping_enhanced senv ok target
          d).trace.filter SdoEv.isWrite = fullWriteSeq target ∧
      (soem_interface_configure_pdo_mapping_enhanced senv ok target
          d).drive.count = target.length) ∧
    ((soem_interface_configure_pdo_mapping_enhanced senv ok target d).outcome
        = .error →
      (∃ rest, fullWriteSeq target =
        ((soem_interface_configure_pdo_mapping_enhanced senv ok target
            d).trace.filter SdoEv.isWrite) ++ rest) ∧
      ((soem_interface_configure_pdo_mapping_enhanced senv ok target d).drive = d ∨
       (soem_interface_configure_pdo_mapping_enhanced senv ok target
          d).drive.assign = 0 ∨
       SdoEv.writeAssign 1 ∈
        (soem_interface_configure_pdo_mapping_enhanced senv ok target d).trace)) := by
  constructor
  · intro hok hmis
    obtain ⟨h1, h2, h3, h4⟩ := negotiate_mismatch_allOk senv ok target d hset hok hmis
    exact ⟨h1, h2, h3⟩
  · intro herr
    by_cases hok0 : ok 0 = false
    · have hstep : soem_interface_configure_pdo_mapping_enhanced senv ok target d =
          { outcome := (negotiate_writes ok target 1 d).1,
            drive := (negotiate_writes ok target 1 d).2.1,
            trace := SdoEv.readCount :: (negotiate_writes ok target 1 d).2.2,
            stateReqs :=
              (soem_interface_set_ethercat_state EC_STATE_PRE_OP
                senv).2.2.flatten } := by
        simp [soem_interface_configure_pdo_mapping_enhanced, hset, hok0]
      rw [hstep] at herr ⊢
      have hlift := negotiate_error_lift ok target 1 d [SdoEv.readCount] rfl herr
      simpa using hlift
    · by_cases hcnt : d.count = target.length
      · by_cases hm : (entriesMatchAux ok target d 1 (List.range target.length)).1
            = true
        · have hstep : soem_interface_configure_pdo_mapping_enhanced senv ok
              target d =
              { outcome := .unchanged, drive := d,
                trace := SdoEv.readCount ::
                  (entriesMatchAux ok target d 1 (List.range target.length)).2.2,
                stateReqs :=
                  (soem_interface_set_ethercat_state EC_STATE_PRE_OP
                    senv).2.2.flatten } := by
            simp [soem_interface_configure_pdo_mapping_enhanced, hset, hok0, hcnt,
              hm]
          rw [hstep] at herr
          simp at herr
        · have hstep : soem_interface_configure_pdo_mapping_enhanced senv ok
              target d =
              { outcome := (negotiate_writes ok target
                  (entriesMatchAux ok target d 1 (List.range target.length)).2.1
                  d).1,
                drive := (negotiate_writes ok target
                  (entriesMatchAux ok target d 1 (List.range target.length)).2.1
                  d).2.1,
                trace := (SdoEv.readCount ::
                  (entriesMatchAux ok target d 1 (List.range target.length)).2.2) ++
                  (negotiate_writes ok target
                    (entriesMatchAux ok target d 1
                      (List.range target.length)).2.1 d).2.2,
                stateReqs :=
                  (soem_interface_set_ethercat_state EC_STATE_PRE_OP
                    senv).2.2.flatten } := by
            simp [soem_interface_configure_pdo_mapping_enhanced, hset, hok0, hcnt,
              hm]
          rw [hstep] at herr ⊢
          have hpre : ((SdoEv.readCount ::
              (entriesMatchAux ok target d 1 (List.range target.length)).2.2) :
                List SdoEv).filter SdoEv.isWrite = [] := by
            simp only [List.filter_cons]
            rw [entriesMatchAux_no_writes]
            rfl
          have hlift := negotiate_error_lift ok target
            (entriesMatchAux ok target d 1 (List.range target.length)).2.1 d _
            hpre herr
          simpa using hlift
      · have hstep : soem_interface_configure_pdo_mapping_enhanced senv ok
            target d =
            { outcome := (negotiate_writes ok target 1 d).1,
              drive := (negotiate_writes ok target 1 d).2.1,
              trace := [SdoEv.readCount] ++ (negotiate_writes ok target 1 d).2.2,
              stateReqs :=
                (soem_interface_set_ethercat_state EC_STATE_PRE_OP
                  senv).2.2.flatten } := by
          simp [soem_interface_configure_pdo_mapping_enhanced, hset, hok0, hcnt]
        rw [hstep] at herr ⊢
        have hlift := negotiate_error_lift ok target 1 d [SdoEv.readCount] rfl herr
        simpa using hlift

/-- Witness for the amended C4 on a drive with two stale entries and the
four-entry RxPDO target list, with every transaction succeeding: the
negotiation applies the full rewrite and its SDO writes are exactly the
prescribed sequence. -/
theorem claim_C4_mapping_rewrite_witness :
    (soem_interface_configure_pdo_mapping_enhanced senvPreOpOk (fun _ => true)
        rxpdo_mapping ⟨1, 2, fun _ => 0x11223344⟩).outcome = .applied ∧
    (soem_interface_configure_pdo_mapping_enhanced senvPreOpOk (fun _ => true)
        rxpdo_mapping ⟨1, 2, fun _ => 0x11223344⟩).trace.filter SdoEv.isWrite =
      fullWriteSeq rxpdo_mapping := by
  have h := (claim_C4_mapping_rewrite senvPreOpOk (fun _ => true) rxpdo_mapping
    ⟨1, 2, fun _ => 0x11223344⟩ (by decide)).1 (fun _ => rfl) (by decide)
  exact ⟨h.1, h.2.1⟩

/-- C5: idempotence of PDO mapping negotiation. With the transport
succeeding, if the drive's current mapping count equals the target count
and every read-back entry equals the corresponding target entry, the
negotiation returns Unchanged and its SDO trace contains no write; hence a
second call with the same target list after any non-failing first call
issues zero write transactions. -/
theorem claim_C5_negotiation_idempotent (senv : Nat → AttemptEnv)
    (ok : Nat → Bool) (target : List Nat) (d : Drive)
    (hset : (soem_interface_set_ethercat_state EC_STATE_PRE_OP senv).1 = true)
    (hok : ∀ n, ok n = true) :
    ((d.count = target.length →
      (∀ i, i < target.length → d.entries (i + 1) = target.getD i 0) →
      (soem_interface_configure_pdo_mapping_enhanced senv ok target d).outcome
          = .unchanged ∧
      (soem_interface_configure_pdo_mapping_enhanced senv ok target
          d).trace.filter SdoEv.isWrite = []) ∧
     ((soem_interface_configure_pdo_mapping_enhanced senv ok target d).outcome
          ≠ .error →
      (soem_interface_configure_pdo_mapping_enhanced senv ok target
        (soem_interface_configure_pdo_mapping_enhanced senv ok target
          d).drive).outcome = .unchanged ∧
      (soem_interface_configure_pdo_mapping_enhanced senv ok target
        (soem_interface_configure_pdo_mapping_enhanced senv ok target
          d).drive).trace.filter SdoEv.isWrite = [])) := by
  constructor
  · intro hcnt hent
    exact negotiate_unchanged senv ok target d hset hok hcnt hent
  · intro hne
    obtain ⟨hdc, hde⟩ := negotiate_allOk_drive senv ok target d hset hok hne
    exact negotiate_unchanged senv ok target
      (soem_interface_configure_pdo_mapping_enhanced senv ok target d).drive
      hset hok hdc hde

/-- Witness for C5: a drive already holding the four-entry RxPDO mapping is
negotiated without a single write, and renegotiating after a full rewrite of
a stale drive also issues zero writes. -/
theorem claim_C5_negotiation_idempotent_witness :
    (soem_interface_configure_pdo_mapping_enhanced senvPreOpOk (fun _ => true)
        rxpdo_mapping
        ⟨1, 4, fun j => rxpdo_mapping.getD (j - 1) 0⟩).outcome = .unchanged ∧
    (soem_interface_configure_pdo_mapping_enhanced senvPreOpOk (fun _ => true)
        rxpdo_mapping
        ⟨1, 4, fun j => rxpdo_mapping.getD (j - 1) 0⟩).trace.filter SdoEv.isWrite
      = [] :=
  (claim_C5_negotiation_idempotent senvPreOpOk (fun _ => true) rxpdo_mapping
    ⟨1, 4, fun j => rxpdo_mapping.getD (j - 1) 0⟩ (by decide)
    (fun _ => rfl)).1 (by decide) (by decide)

theorem attempt_requests_non_operational (desired : Nat) (e : AttemptEnv)
    (hne : desired ≠ EC_STATE_OPERATIONAL) :
    (attempt_requests desired e).2 = [desired] := by
  unfold attempt_requests
  by_cases h1 : e.checkOk = true ∧ e.observed &&& 0x0F = desired
  · rw [if_pos h1]
  · rw [if_neg h1, if_neg (by intro h; exact hne h.1)]

theorem set_state_requests_non_operational (desired : Nat)
    (env : Nat → AttemptEnv) (hne : desired ≠ EC_STATE_OPERATIONAL) :
    ∀ x ∈ (soem_interface_set_ethercat_state desired env).2.2.flatten,
      x = desired := by
  intro x hx
  obtain ⟨l, hl, hxl⟩ := List.mem_flatten.mp hx
  have hb := (set_state_aux_bound desired env 5 0).2.2
  rw [show soem_interface_set_ethercat_state desired env =
    set_state_aux desired env 5 0 from rfl, hb] at hl
  obtain ⟨j, _, hj⟩ := List.mem_map.mp hl
  rw [← hj, attempt_requests_non_operational desired _ hne] at hxl
  simpa using hxl

theorem negotiate_stateReqs (senv : Nat → AttemptEnv) (ok : Nat → Bool)
    (target : List Nat) (d : Drive) :
    (soem_interface_configure_pdo_mapping_enhanced senv ok target d).stateReqs =
      (soem_interface_set_ethercat_state EC_STATE_PRE_OP senv).2.2.flatten := by
  unfold soem_interface_configure_pdo_mapping_enhanced
  by_cases h1 : (soem_interface_set_ethercat_state EC_STATE_PRE_OP senv).1 = false
  · simp [h1]
  · by_cases h2 : ok 0 = false
    · simp [h1, h2]
    · by_cases h3 : d.count = target.length
      · simp only [soem_interface_configure_pdo_mapping_enhanced, h1, h2, h3]
        simp [h1, h2]
        split
        · rfl
        · rfl
      · simp [h1, h2, h3]

/-- C6 counterexample: the claim says negotiation leaves the slave state
requested through the transport untouched, but on a drive whose mapping
already matches (so not a single SDO write is needed) the negotiation call
still issues a PRE-OP slave-state request through ec_writestate before its
first SDO transaction. -/
theorem claim_C6_counterexample :
    (soem_interface_configure_pdo_mapping_enhanced senvPreOpOk (fun _ => true)
        rxpdo_mapping
        ⟨1, 4, fun j => rxpdo_mapping.getD (j - 1) 0⟩).stateReqs =
      [EC_STATE_PRE_OP] ∧
    ([EC_STATE_PRE_OP] : List Nat) ≠ [] := by
  refine ⟨by decide, by decide⟩

/-- C6 (amended): being in PRE-OP is not left to the caller — the
negotiation itself requests PRE-OP through the transport at its start, and
its enclosing configuration routine additionally requests INIT and then
PRE-OP; but no execution of either ever requests a slave state other than
INIT or PRE-OP (in particular never SAFE-OP or OPERATIONAL), so the
PRE-OP-for-configuration discipline itself is preserved. -/
theorem claim_C6_no_state_change (senv : Nat → AttemptEnv) (ok : Nat → Bool)
    (target : List Nat) (d : Drive) :
    (∀ x ∈ (soem_interface_configure_pdo_mapping_enhanced senv ok target
        d).stateReqs, x = EC_STATE_PRE_OP) ∧
    (∀ (senvInit senvPre : Nat → AttemptEnv) (okProbe : Bool)
        (senvRx : Nat → AttemptEnv) (okRx : Nat → Bool)
        (senvTx : Nat → AttemptEnv) (okTx : Nat → Bool) (dRx dTx : Drive),
      ∀ x ∈ (configure_somanet_pdo_mapping_enhanced senvInit senvPre okProbe
          senvRx okRx senvTx okTx dRx dTx).2,
        x = EC_STATE_INIT ∨ x = EC_STATE_PRE_OP) := by
  constructor
  · intro x hx
    rw [negotiate_stateReqs] at hx
    exact set_state_requests_non_operational EC_STATE_PRE_OP senv (by decide) x hx
  · intro senvInit senvPre okProbe senvRx okRx senvTx okTx dRx dTx x hx
    unfold configure_somanet_pdo_mapping_enhanced at hx
    by_cases h1 : (soem_interface_set_ethercat_state EC_STATE_INIT senvInit).1
        = false
    · simp only [h1, if_true] at hx
      exact Or.inl
        (set_state_requests_non_operational EC_STATE_INIT senvInit (by decide) x hx)
    · by_cases h2 : (soem_interface_set_ethercat_state EC_STATE_PRE_OP senvPre).1
          = false
      · simp only [h1, h2, if_false, if_true] at hx
        rcases List.mem_append.mp hx with h | h
        · exact Or.inl (set_state_requests_non_operational EC_STATE_INIT senvInit
            (by decide) x h)
        · exact Or.inr (set_state_requests_non_operational EC_STATE_PRE_OP senvPre
            (by decide) x h)
      · by_cases h3 : okProbe = false
        · simp only [h1, h2, h3, if_false, if_true] at hx
          rcases List.mem_append.mp hx with h | h
          · exact Or.inl (set_state_requests_non_operational EC_STATE_INIT
              senvInit (by decide) x h)
          · exact Or.inr (set_state_requests_non_operational EC_STATE_PRE_OP
              senvPre (by decide) x h)
        · simp only [h1, h2, h3, if_false] at hx
          rcases List.mem_append.mp hx with h | h
          · rcases List.mem_append.mp h with h' | h'
            · rcases List.mem_append.mp h' with h'' | h''
              · exact Or.inl (set_state_requests_non_operational EC_STATE_INIT
                  senvInit (by decide) x h'')
              · exact Or.inr (set_state_requests_non_operational EC_STATE_PRE_OP
                  senvPre (by decide) x h'')
            · rw [negotiate_stateReqs] at h'
              exact Or.inr (set_state_requests_non_operational EC_STATE_PRE_OP
                senvRx (by decide) x h')
          · rw [negotiate_stateReqs] at h
            exact Or.inr (set_state_requests_non_operational EC_STATE_PRE_OP
              senvTx (by decide) x h)

/-- Witness for the amended C6: the PRE-OP request recorded in the concrete
counterexample run is indeed classified as a PRE-OP request. -/
theorem claim_C6_no_state_change_witness :
    EC_STATE_PRE_OP = EC_STATE_PRE_OP ∧ (0x02 : Nat) = EC_STATE_PRE_OP :=
  ⟨rfl, (claim_C6_no_state_change senvPreOpOk (fun _ => true) rxpdo_mapping
    ⟨1, 4, fun j => rxpdo_mapping.getD (j - 1) 0⟩).1 0x02 (by decide)⟩

/-- Witness for C3: the standalone planner queried from ReadyToSwitchOn with
the non-canonical target OperationEnabled falls back to Shutdown (0x06). -/
theorem claim_C3_transition_planner_witness :
    get_cia402_controlword_for_transition .readyToSwitchOn .operationEnabled
      = 0x0006 :=
  claim_C3_transition_planner.2.2.2.2.2.2.2.2.2.2.2.2.2.2.1
    .operationEnabled (by decide)
